import Mathlib

/-!
Verification of the streamload client (a Go StarRocks stream-load library)
against its natural-language specification.

The development shallowly embeds the parts of the source that the claims
are about:

* the endpoint pool and round-robin selector (`nextFE`, `getCurrentFEURL`),
* the failover dispatch loop (`doRequest`),
* the shared 307-redirect handling block that every operation repeats
  (`handle307` and the per-operation response phases),
* the request-body buffering behaviour of `Load` versus `LoadTransaction`
  (Go `bytes.Buffer` reads are consuming; `LoadTransaction` seeks back to
  offset 0 before the redirect, `Load` does not),
* the response-validation tails of the six exported operations,
* the struct-tag column extractors of struct_loader.go, together with a
  spec-modelled type-keyed cache (the cached variant of the extractors is
  referenced by the repository benchmarks but its code is not present in
  the sources given),
* the option rewriting performed by `LoadStructsJSON`.

External effects (the HTTP transport, JSON decoding) are passed in as
oracle functions, so every definition is executable and the dispatch
behaviour is a pure function of the oracle.
-/

/-- Embedding of Go struct FEEndpoint: one coordinator host and port. -/
structure FEEndpoint where
  Host : String
  Port : String
deriving DecidableEq, Repr, Inhabited

/-- Dispatch-relevant state of the Go Client: the fixed endpoint slice and
the current round-robin index (the other Client fields are credentials and
configuration that the pool logic never touches). -/
structure ClientState where
  fes : List FEEndpoint
  currentFEIndex : Nat
deriving DecidableEq, Repr

/-- URL string built for an endpoint, as in getCurrentFEURL:
fmt.Sprintf("http://%s:%s", fe.Host, fe.Port). -/
def feURL (fe : FEEndpoint) : String :=
  "http://" ++ fe.Host ++ ":" ++ fe.Port

/-- Embedding of Client.getCurrentFEURL: the URL of the endpoint at the
current index. The Go code indexes c.fes[c.currentFEIndex]; under the
documented invariant the index is always in range, so the out-of-range
default is never reached in any theorem below. -/
def getCurrentFEURL (c : ClientState) : String :=
  feURL (c.fes.getD c.currentFEIndex default)

/-- Embedding of Client.nextFE: currentFEIndex becomes
(currentFEIndex + 1) mod len(fes). -/
def nextFE (c : ClientState) : ClientState :=
  { c with currentFEIndex := (c.currentFEIndex + 1) % c.fes.length }

/-- Embedding of an HTTP response as the client observes it: status code,
header list, body text. -/
structure HttpResponse where
  statusCode : Nat
  headers : List (String × String)
  body : String
deriving DecidableEq, Repr

/-- Result of the doRequest loop, instrumented with the list of target
URLs that were attempted, in order. `resp`/`err` mirror the Go pair
(*http.Response, error): success gives (resp, nil), exhaustion gives
(nil, lastErr). -/
structure DoRequestResult where
  client : ClientState
  attempts : List String
  resp : Option HttpResponse
  err : Option String
deriving DecidableEq, Repr

/-- Loop body of Client.doRequest. `send i url` is the transport oracle
(httpClient.Do) for attempt number `i` against target `url`; `remaining`
is the number of attempts left out of maxRetries = len(fes); `lastErr`
is the accumulated last transport error. Each failed attempt advances the
pool with nextFE and recurses; a successful attempt returns immediately. -/
def doRequestLoop (send : Nat → String → Except String HttpResponse)
    (reqPath : String) (c : ClientState) (i : Nat) (remaining : Nat)
    (lastErr : Option String) : DoRequestResult :=
  match remaining with
  | 0 => ⟨c, [], none, lastErr⟩
  | r + 1 =>
    let url := getCurrentFEURL c ++ reqPath
    match send i url with
    | .ok resp => ⟨c, [url], some resp, none⟩
    | .error e =>
      let rest := doRequestLoop send reqPath (nextFE c) (i + 1) r (some e)
      ⟨rest.client, url :: rest.attempts, rest.resp, rest.err⟩

/-- Embedding of Client.doRequest: up to len(fes) attempts, materializing
the request URL from the current endpoint plus the request path each
time. -/
def doRequest (send : Nat → String → Except String HttpResponse)
    (reqPath : String) (c : ClientState) : DoRequestResult :=
  doRequestLoop send reqPath c 0 c.fes.length none

lemma nextFE_fes (c : ClientState) : (nextFE c).fes = c.fes := rfl

lemma iterate_nextFE_fes (c : ClientState) (n : Nat) :
    (nextFE^[n] c).fes = c.fes := by
  induction n generalizing c with
  | zero => rfl
  | succ n ih =>
    rw [Function.iterate_succ_apply]
    exact ih (nextFE c)

lemma iterate_nextFE_index (c : ClientState) (n : Nat)
    (h : c.currentFEIndex < c.fes.length) :
    (nextFE^[n] c).currentFEIndex = (c.currentFEIndex + n) % c.fes.length := by
  induction n generalizing c with
  | zero =>
    simpa using (Nat.mod_eq_of_lt h).symm
  | succ n ih =>
    have hpos : 0 < c.fes.length := Nat.lt_of_le_of_lt (Nat.zero_le _) h
    have hlt : (nextFE c).currentFEIndex < (nextFE c).fes.length := by
      show (c.currentFEIndex + 1) % c.fes.length < c.fes.length
      exact Nat.mod_lt _ hpos
    rw [Function.iterate_succ_apply]
    have := ih (nextFE c) hlt
    rw [this]
    show ((c.currentFEIndex + 1) % c.fes.length + n) % c.fes.length =
      (c.currentFEIndex + (n + 1)) % c.fes.length
    rw [Nat.mod_add_mod]
    congr 1
    omega

lemma iterate_nextFE_index_lt (c : ClientState) (n : Nat)
    (h : c.currentFEIndex < c.fes.length) :
    (nextFE^[n] c).currentFEIndex < c.fes.length := by
  have hpos : 0 < c.fes.length := Nat.lt_of_le_of_lt (Nat.zero_le _) h
  rw [iterate_nextFE_index c n h]
  exact Nat.mod_lt _ hpos

/-- Claim C8: nextFE sets the index to (index + 1) mod N, the index stays
in [0, N), and N consecutive advances return the state to its starting
value, so the rotation is deterministic with period N. -/
theorem nextFE_rotation (c : ClientState)
    (h : c.currentFEIndex < c.fes.length) :
    (nextFE c).currentFEIndex = (c.currentFEIndex + 1) % c.fes.length ∧
    (nextFE c).currentFEIndex < c.fes.length ∧
    nextFE^[c.fes.length] c = c := by
  have hpos : 0 < c.fes.length := Nat.lt_of_le_of_lt (Nat.zero_le _) h
  refine ⟨rfl, Nat.mod_lt _ hpos, ?_⟩
  have hfes := iterate_nextFE_fes c c.fes.length
  have hidx := iterate_nextFE_index c c.fes.length h
  have : (c.currentFEIndex + c.fes.length) % c.fes.length = c.currentFEIndex := by
    rw [Nat.add_mod_right]
    exact Nat.mod_eq_of_lt h
  cases hc : nextFE^[c.fes.length] c with
  | mk fes idx =>
    rw [hc] at hfes hidx
    simp only at hfes hidx
    rw [this] at hidx
    simp [hfes, hidx]

/-- Witness for C8 at a concrete three-endpoint pool. -/
theorem nextFE_rotation_witness :
    (nextFE ⟨[⟨"a", "1"⟩, ⟨"b", "2"⟩, ⟨"c", "3"⟩], 1⟩).currentFEIndex =
      (1 + 1) % 3 ∧
    (nextFE ⟨[⟨"a", "1"⟩, ⟨"b", "2"⟩, ⟨"c", "3"⟩], 1⟩).currentFEIndex < 3 ∧
    nextFE^[3] ⟨[⟨"a", "1"⟩, ⟨"b", "2"⟩, ⟨"c", "3"⟩], 1⟩ =
      ⟨[⟨"a", "1"⟩, ⟨"b", "2"⟩, ⟨"c", "3"⟩], 1⟩ :=
  nextFE_rotation ⟨[⟨"a", "1"⟩, ⟨"b", "2"⟩, ⟨"c", "3"⟩], 1⟩ (by decide)

lemma doRequestLoop_all_fail (send : Nat → String → Except String HttpResponse)
    (reqPath : String) (errF : Nat → String)
    (hfail : ∀ i url, send i url = .error (errF i)) :
    ∀ (r : Nat) (c : ClientState) (i : Nat) (le : Option String),
    doRequestLoop send reqPath c i r le =
      ⟨nextFE^[r] c,
       (List.range r).map (fun k => getCurrentFEURL (nextFE^[k] c) ++ reqPath),
       none,
       match r with
       | 0 => le
       | r' + 1 => some (errF (i + r'))⟩ := by
  intro r
  induction r with
  | zero => intro c i le; rfl
  | succ r ih =>
    intro c i le
    simp only [doRequestLoop, hfail]
    rw [ih (nextFE c) (i + 1) (some (errF i))]
    simp only [List.range_succ_eq_map, List.map_cons, List.map_map,
      DoRequestResult.mk.injEq, Function.iterate_succ_apply]
    refine ⟨trivial, ?_, trivial, ?_⟩
    · refine congrArg₂ List.cons (by simp) ?_
      refine List.map_congr_left ?_
      intro k _
      simp [Function.comp, Function.iterate_succ_apply]
    · cases r with
      | zero => simp
      | succ r' =>
        simp only
        refine congrArg (fun n => some (errF n)) ?_
        omega

/-- Claim C1: with a non-empty pool of size N and a transport that fails on
every attempt, doRequest performs exactly N attempts, one against each
endpoint in rotation order starting from the current index, returns the
last transport error and no response, and leaves the index back at its
starting value (having advanced once per failure). -/
theorem doRequest_exhausts_pool_in_rotation
    (send : Nat → String → Except String HttpResponse) (reqPath : String)
    (c : ClientState) (errF : Nat → String)
    (hidx : c.currentFEIndex < c.fes.length)
    (hfail : ∀ i url, send i url = .error (errF i)) :
    (doRequest send reqPath c).attempts.length = c.fes.length ∧
    (doRequest send reqPath c).attempts =
      (List.range c.fes.length).map
        (fun k =>
          feURL (c.fes.getD ((c.currentFEIndex + k) % c.fes.length) default) ++
            reqPath) ∧
    (doRequest send reqPath c).resp = none ∧
    (doRequest send reqPath c).err = some (errF (c.fes.length - 1)) ∧
    (doRequest send reqPath c).client.currentFEIndex = c.currentFEIndex ∧
    (doRequest send reqPath c).client.fes = c.fes := by
  have hloop := doRequestLoop_all_fail send reqPath errF hfail c.fes.length c 0 none
  rw [doRequest, hloop]
  have hatt : ∀ k, getCurrentFEURL (nextFE^[k] c) ++ reqPath =
      feURL (c.fes.getD ((c.currentFEIndex + k) % c.fes.length) default) ++ reqPath := by
    intro k
    rw [getCurrentFEURL, iterate_nextFE_index c k hidx, iterate_nextFE_fes c k]
  constructor
  · simp
  refine ⟨List.map_congr_left (fun k _ => hatt k), rfl, ?_, ?_, ?_⟩
  · cases hn : c.fes.length with
    | zero => omega
    | succ n => simp
  · rw [iterate_nextFE_index c c.fes.length hidx, Nat.add_mod_right]
    exact Nat.mod_eq_of_lt hidx
  · exact iterate_nextFE_fes c c.fes.length

/-- Witness for C1: two endpoints, every transport attempt refused. -/
theorem doRequest_exhausts_pool_in_rotation_witness :
    (doRequest (fun _ _ => .error "conn refused") "/p"
        ⟨[⟨"a", "1"⟩, ⟨"b", "2"⟩], 0⟩).attempts.length = 2 ∧
    (doRequest (fun _ _ => .error "conn refused") "/p"
        ⟨[⟨"a", "1"⟩, ⟨"b", "2"⟩], 0⟩).attempts =
      (List.range 2).map
        (fun k =>
          feURL (([⟨"a", "1"⟩, ⟨"b", "2"⟩] : List FEEndpoint).getD ((0 + k) % 2) default) ++
            "/p") ∧
    (doRequest (fun _ _ => .error "conn refused") "/p"
        ⟨[⟨"a", "1"⟩, ⟨"b", "2"⟩], 0⟩).resp = none ∧
    (doRequest (fun _ _ => .error "conn refused") "/p"
        ⟨[⟨"a", "1"⟩, ⟨"b", "2"⟩], 0⟩).err = some "conn refused" ∧
    (doRequest (fun _ _ => .error "conn refused") "/p"
        ⟨[⟨"a", "1"⟩, ⟨"b", "2"⟩], 0⟩).client.currentFEIndex = 0 ∧
    (doRequest (fun _ _ => .error "conn refused") "/p"
        ⟨[⟨"a", "1"⟩, ⟨"b", "2"⟩], 0⟩).client.fes = [⟨"a", "1"⟩, ⟨"b", "2"⟩] :=
  doRequest_exhausts_pool_in_rotation (fun _ _ => .error "conn refused") "/p"
    ⟨[⟨"a", "1"⟩, ⟨"b", "2"⟩], 0⟩ (fun _ => "conn refused") (by decide)
    (fun _ _ => rfl)

lemma doRequestLoop_success (send : Nat → String → Except String HttpResponse)
    (reqPath : String) (k : Nat) (errF : Nat → String) (resp : HttpResponse)
    (hfail : ∀ i url, i < k → send i url = .error (errF i))
    (hok : ∀ url, send k url = .ok resp) :
    ∀ (j : Nat) (c : ClientState) (r : Nat) (le : Option String) (i : Nat),
    i + j = k → j < r →
    doRequestLoop send reqPath c i r le =
      ⟨nextFE^[j] c,
       (List.range (j + 1)).map (fun m => getCurrentFEURL (nextFE^[m] c) ++ reqPath),
       some resp,
       none⟩ := by
  intro j
  induction j with
  | zero =>
    intro c r le i hik hjr
    cases r with
    | zero => omega
    | succ r' =>
      have hi : i = k := by omega
      subst hi
      simp only [doRequestLoop, hok (getCurrentFEURL c ++ reqPath)]
      simp [List.range_succ]
  | succ j ih =>
    intro c r le i hik hjr
    cases r with
    | zero => omega
    | succ r' =>
      have hik' : i < k := by omega
      simp only [doRequestLoop, hfail i (getCurrentFEURL c ++ reqPath) hik']
      rw [ih (nextFE c) r' (some (errF i)) (i + 1) (by omega) (by omega)]
      simp only [List.range_succ_eq_map, List.map_cons, List.map_map,
        DoRequestResult.mk.injEq, Function.iterate_succ_apply]
      refine ⟨trivial, ?_, trivial, trivial⟩
      simp only [List.cons.injEq, Function.comp]
      refine ⟨by simp, trivial, List.map_congr_left ?_⟩
      intro m _
      simp [Function.iterate_succ_apply]

/-- Claim C3: if the first k transport attempts fail and attempt k receives
an HTTP response (of any status code whatsoever), doRequest returns that
response immediately with no error, having made exactly k + 1 attempts and
advanced the index only for the k failures — a non-2xx application status
never triggers failover to another endpoint. -/
theorem doRequest_returns_first_success
    (send : Nat → String → Except String HttpResponse) (reqPath : String)
    (c : ClientState) (k : Nat) (errF : Nat → String) (resp : HttpResponse)
    (hidx : c.currentFEIndex < c.fes.length) (hk : k < c.fes.length)
    (hfail : ∀ i url, i < k → send i url = .error (errF i))
    (hok : ∀ url, send k url = .ok resp) :
    (doRequest send reqPath c).resp = some resp ∧
    (doRequest send reqPath c).err = none ∧
    (doRequest send reqPath c).attempts.length = k + 1 ∧
    (doRequest send reqPath c).client.currentFEIndex =
      (c.currentFEIndex + k) % c.fes.length ∧
    (doRequest send reqPath c).client.fes = c.fes := by
  have hloop := doRequestLoop_success send reqPath k errF resp hfail hok k c
    c.fes.length none 0 (by omega) hk
  rw [doRequest, hloop]
  refine ⟨rfl, rfl, by simp, ?_, ?_⟩
  · exact iterate_nextFE_index c k hidx
  · exact iterate_nextFE_fes c k

/-- Witness for C3: two endpoints, the first attempt fails, the second
receives an HTTP 500 response, which is returned without further
failover. -/
theorem doRequest_returns_first_success_witness :
    (doRequest
        (fun i _ => if i = 0 then .error "conn refused" else .ok ⟨500, [], "body"⟩)
        "/p" ⟨[⟨"a", "1"⟩, ⟨"b", "2"⟩], 0⟩).resp = some ⟨500, [], "body"⟩ ∧
    (doRequest
        (fun i _ => if i = 0 then .error "conn refused" else .ok ⟨500, [], "body"⟩)
        "/p" ⟨[⟨"a", "1"⟩, ⟨"b", "2"⟩], 0⟩).err = none ∧
    (doRequest
        (fun i _ => if i = 0 then .error "conn refused" else .ok ⟨500, [], "body"⟩)
        "/p" ⟨[⟨"a", "1"⟩, ⟨"b", "2"⟩], 0⟩).attempts.length = 1 + 1 ∧
    (doRequest
        (fun i _ => if i = 0 then .error "conn refused" else .ok ⟨500, [], "body"⟩)
        "/p" ⟨[⟨"a", "1"⟩, ⟨"b", "2"⟩], 0⟩).client.currentFEIndex = (0 + 1) % 2 ∧
    (doRequest
        (fun i _ => if i = 0 then .error "conn refused" else .ok ⟨500, [], "body"⟩)
        "/p" ⟨[⟨"a", "1"⟩, ⟨"b", "2"⟩], 0⟩).client.fes = [⟨"a", "1"⟩, ⟨"b", "2"⟩] :=
  doRequest_returns_first_success
    (fun i _ => if i = 0 then .error "conn refused" else .ok ⟨500, [], "body"⟩)
    "/p" ⟨[⟨"a", "1"⟩, ⟨"b", "2"⟩], 0⟩ 1 (fun _ => "conn refused") ⟨500, [], "body"⟩
    (by decide) (by decide)
    (by intro i url hi
        have : i = 0 := by omega
        subst this
        rfl)
    (by intro url; rfl)

/-- Embedding of Go struct LoadResponse (the decoded stream-load reply). -/
structure LoadResponse where
  Status : String
  Message : String
  NumberTotalRows : Int
  NumberLoadedRows : Int
  NumberFilteredRows : Int
  NumberUnselectedRows : Int
  LoadBytes : Int
  LoadTimeMs : Int
  BeginTxnTimeMs : Int
  StreamLoadPlanTimeMs : Int
  ReadDataTimeMs : Int
  WriteDataTimeMs : Int
  CommittedAndPublishTimeMs : Int
  ErrorURL : String
  Timezone : String
deriving DecidableEq, Repr

/-- Embedding of Go struct TransactionBeginResponse. -/
structure TransactionBeginResponse where
  TxnId : Int
  Status : String
  Message : String
deriving DecidableEq, Repr

/-- Embedding of Go struct TransactionPrepareResponse. -/
structure TransactionPrepareResponse where
  TxnId : Int
  Status : String
  Message : String
  NumberTotalRows : Int
  NumberLoadedRows : Int
  NumberFilteredRows : Int
  NumberUnselectedRows : Int
  LoadBytes : Int
  LoadTimeMs : Int
  StreamLoadPutTimeMs : Int
  ReceivedDataTimeMs : Int
  WriteDataTimeMs : Int
  CommitAndPublishTimeMs : Int
deriving DecidableEq, Repr

/-- Embedding of Go struct TransactionCommitResponse. -/
structure TransactionCommitResponse where
  TxnId : Int
  Status : String
  Message : String
  NumberTotalRows : Int
  NumberLoadedRows : Int
  NumberFilteredRows : Int
  NumberUnselectedRows : Int
  LoadBytes : Int
  LoadTimeMs : Int
  StreamLoadPutTimeMs : Int
  ReceivedDataTimeMs : Int
  WriteDataTimeMs : Int
  CommitAndPublishTimeMs : Int
deriving DecidableEq, Repr

/-- Embedding of Go struct TransactionRollbackResponse. -/
structure TransactionRollbackResponse where
  TxnId : Int
  Status : String
  Message : String
deriving DecidableEq, Repr

/-- Validation tail of Load (src/load.go lines 145 through 153): after a
successful decode, reject on non-200 HTTP status, then on a decoded Status
different from the sentinel "Success"; the decoded response accompanies
any error. -/
def loadValidate (statusCode : Nat) (loadResp : LoadResponse) :
    Option LoadResponse × Option String :=
  if statusCode ≠ 200 then
    (some loadResp,
     some ("stream load failed with status " ++ toString statusCode ++ ": " ++
       loadResp.Message))
  else if loadResp.Status ≠ "Success" then
    (some loadResp, some ("stream load failed: " ++ loadResp.Message))
  else
    (some loadResp, none)

/-- Validation tail of BeginTransaction: only the HTTP status is checked;
the decoded Status field is not compared against any sentinel. -/
def beginValidate (statusCode : Nat) (txnResp : TransactionBeginResponse) :
    Option TransactionBeginResponse × Option String :=
  if statusCode ≠ 200 then
    (some txnResp,
     some ("begin transaction failed with status " ++ toString statusCode ++
       ": " ++ txnResp.Message))
  else
    (some txnResp, none)

/-- Validation tail of PrepareTransaction: non-200 HTTP status, then a
decoded Status different from the sentinel "OK", are both failures. -/
def prepareValidate (statusCode : Nat) (prepResp : TransactionPrepareResponse) :
    Option TransactionPrepareResponse × Option String :=
  if statusCode ≠ 200 then
    (some prepResp,
     some ("prepare transaction failed with status " ++ toString statusCode ++
       ": " ++ prepResp.Message))
  else if prepResp.Status ≠ "OK" then
    (some prepResp, some ("prepare transaction failed: " ++ prepResp.Message))
  else
    (some prepResp, none)

/-- Validation tail of LoadTransaction: non-200 HTTP status, then a decoded
Status different from the sentinel "OK", are both failures. -/
def loadTxnValidate (statusCode : Nat) (loadResp : LoadResponse) :
    Option LoadResponse × Option String :=
  if statusCode ≠ 200 then
    (some loadResp,
     some ("transaction load failed with status " ++ toString statusCode ++
       ": " ++ loadResp.Message))
  else if loadResp.Status ≠ "OK" then
    (some loadResp, some ("transaction load failed: " ++ loadResp.Message))
  else
    (some loadResp, none)

/-- Validation tail of CommitTransaction: only the HTTP status is checked;
the decoded Status field is never compared against a sentinel. -/
def commitValidate (statusCode : Nat) (commitResp : TransactionCommitResponse) :
    Option TransactionCommitResponse × Option String :=
  if statusCode ≠ 200 then
    (some commitResp,
     some ("commit transaction failed with status " ++ toString statusCode ++
       ": " ++ commitResp.Message))
  else
    (some commitResp, none)

/-- Validation tail of RollbackTransaction: only the HTTP status is
checked. -/
def rollbackValidate (statusCode : Nat)
    (rollbackResp : TransactionRollbackResponse) :
    Option TransactionRollbackResponse × Option String :=
  if statusCode ≠ 200 then
    (some rollbackResp,
     some ("rollback transaction failed with status " ++ toString statusCode ++
       ": " ++ rollbackResp.Message))
  else
    (some rollbackResp, none)

/-- Claim C4: CommitTransaction accepts any decoded Status once the HTTP
status is 200 and the body decoded, whereas PrepareTransaction and
LoadTransaction reject (non-nil error) whenever the decoded Status differs
from the sentinel "OK", even on HTTP 200. -/
theorem commit_lenient_prepare_load_strict :
    (∀ r : TransactionCommitResponse, commitValidate 200 r = (some r, none)) ∧
    (∀ r : TransactionPrepareResponse, r.Status ≠ "OK" →
      (prepareValidate 200 r).2.isSome = true) ∧
    (∀ r : LoadResponse, r.Status ≠ "OK" →
      (loadTxnValidate 200 r).2.isSome = true) := by
  refine ⟨?_, ?_, ?_⟩
  · intro r
    simp [commitValidate]
  · intro r hr
    simp [prepareValidate, hr]
  · intro r hr
    simp [loadTxnValidate, hr]

/-- Witness for C4 at concrete responses whose Status field is "Fail". -/
theorem commit_lenient_prepare_load_strict_witness :
    commitValidate 200 ⟨1, "Fail", "m", 0, 0, 0, 0, 0, 0, 0, 0, 0, 0⟩ =
      (some ⟨1, "Fail", "m", 0, 0, 0, 0, 0, 0, 0, 0, 0, 0⟩, none) ∧
    (prepareValidate 200 ⟨1, "Fail", "m", 0, 0, 0, 0, 0, 0, 0, 0, 0, 0⟩).2.isSome =
      true ∧
    (loadTxnValidate 200
        ⟨"Fail", "m", 0, 0, 0, 0, 0, 0, 0, 0, 0, 0, 0, "", ""⟩).2.isSome = true :=
  ⟨commit_lenient_prepare_load_strict.1 ⟨1, "Fail", "m", 0, 0, 0, 0, 0, 0, 0, 0, 0, 0⟩,
   commit_lenient_prepare_load_strict.2.1 ⟨1, "Fail", "m", 0, 0, 0, 0, 0, 0, 0, 0, 0, 0⟩
     (by decide),
   commit_lenient_prepare_load_strict.2.2
     ⟨"Fail", "m", 0, 0, 0, 0, 0, 0, 0, 0, 0, 0, 0, "", ""⟩ (by decide)⟩

/-- Helper predicate: an error value is present and its text ends with the
message taken from the decoded server response. -/
def errCarries (out : Option String) (msg : String) : Prop :=
  ∃ p, out = some (p ++ msg)

/-- Claim C5: for every operation, whenever validation fails — because the
HTTP status is not 200 or because the decoded Status differs from the
success sentinel — the operation returns the decoded response alongside a
non-nil error whose text preserves the decoded Message. All six exported
operations are covered. -/
theorem failed_calls_attach_decoded_response :
    (∀ (sc : Nat) (r : LoadResponse), sc ≠ 200 ∨ r.Status ≠ "Success" →
      (loadValidate sc r).1 = some r ∧ errCarries (loadValidate sc r).2 r.Message) ∧
    (∀ (sc : Nat) (r : TransactionBeginResponse), sc ≠ 200 →
      (beginValidate sc r).1 = some r ∧ errCarries (beginValidate sc r).2 r.Message) ∧
    (∀ (sc : Nat) (r : TransactionPrepareResponse), sc ≠ 200 ∨ r.Status ≠ "OK" →
      (prepareValidate sc r).1 = some r ∧
        errCarries (prepareValidate sc r).2 r.Message) ∧
    (∀ (sc : Nat) (r : LoadResponse), sc ≠ 200 ∨ r.Status ≠ "OK" →
      (loadTxnValidate sc r).1 = some r ∧
        errCarries (loadTxnValidate sc r).2 r.Message) ∧
    (∀ (sc : Nat) (r : TransactionCommitResponse), sc ≠ 200 →
      (commitValidate sc r).1 = some r ∧
        errCarries (commitValidate sc r).2 r.Message) ∧
    (∀ (sc : Nat) (r : TransactionRollbackResponse), sc ≠ 200 →
      (rollbackValidate sc r).1 = some r ∧
        errCarries (rollbackValidate sc r).2 r.Message) := by
  refine ⟨?_, ?_, ?_, ?_, ?_, ?_⟩
  · intro sc r h
    by_cases hsc : sc = 200
    · subst hsc
      have hst : r.Status ≠ "Success" := h.resolve_left (by simp)
      exact ⟨by simp [loadValidate, hst], ⟨"stream load failed: ",
        by simp [loadValidate, hst]⟩⟩
    · exact ⟨by simp [loadValidate, hsc],
        ⟨"stream load failed with status " ++ toString sc ++ ": ",
         by simp [loadValidate, hsc, String.append_assoc]⟩⟩
  · intro sc r hsc
    exact ⟨by simp [beginValidate, hsc],
      ⟨"begin transaction failed with status " ++ toString sc ++ ": ",
       by simp [beginValidate, hsc, String.append_assoc]⟩⟩
  · intro sc r h
    by_cases hsc : sc = 200
    · subst hsc
      have hst : r.Status ≠ "OK" := h.resolve_left (by simp)
      exact ⟨by simp [prepareValidate, hst], ⟨"prepare transaction failed: ",
        by simp [prepareValidate, hst]⟩⟩
    · exact ⟨by simp [prepareValidate, hsc],
        ⟨"prepare transaction failed with status " ++ toString sc ++ ": ",
         by simp [prepareValidate, hsc, String.append_assoc]⟩⟩
  · intro sc r h
    by_cases hsc : sc = 200
    · subst hsc
      have hst : r.Status ≠ "OK" := h.resolve_left (by simp)
      exact ⟨by simp [loadTxnValidate, hst], ⟨"transaction load failed: ",
        by simp [loadTxnValidate, hst]⟩⟩
    · exact ⟨by simp [loadTxnValidate, hsc],
        ⟨"transaction load failed with status " ++ toString sc ++ ": ",
         by simp [loadTxnValidate, hsc, String.append_assoc]⟩⟩
  · intro sc r hsc
    exact ⟨by simp [commitValidate, hsc],
      ⟨"commit transaction failed with status " ++ toString sc ++ ": ",
       by simp [commitValidate, hsc, String.append_assoc]⟩⟩
  · intro sc r hsc
    exact ⟨by simp [rollbackValidate, hsc],
      ⟨"rollback transaction failed with status " ++ toString sc ++ ": ",
       by simp [rollbackValidate, hsc, String.append_assoc]⟩⟩

/-- Witness for C5: a decoded Status of "Fail" on HTTP 200 for the plain
load path, and a non-200 HTTP status for the commit path. -/
theorem failed_calls_attach_decoded_response_witness :
    ((loadValidate 200 ⟨"Fail", "server says no", 0, 0, 0, 0, 0, 0, 0, 0, 0, 0, 0, "", ""⟩).1 =
      some ⟨"Fail", "server says no", 0, 0, 0, 0, 0, 0, 0, 0, 0, 0, 0, "", ""⟩ ∧
     errCarries
       (loadValidate 200 ⟨"Fail", "server says no", 0, 0, 0, 0, 0, 0, 0, 0, 0, 0, 0, "", ""⟩).2
       "server says no") ∧
    ((commitValidate 500 ⟨1, "OK", "boom", 0, 0, 0, 0, 0, 0, 0, 0, 0, 0⟩).1 =
      some ⟨1, "OK", "boom", 0, 0, 0, 0, 0, 0, 0, 0, 0, 0⟩ ∧
     errCarries (commitValidate 500 ⟨1, "OK", "boom", 0, 0, 0, 0, 0, 0, 0, 0, 0, 0⟩).2
       "boom") :=
  ⟨failed_calls_attach_decoded_response.1 200
      ⟨"Fail", "server says no", 0, 0, 0, 0, 0, 0, 0, 0, 0, 0, 0, "", ""⟩
      (Or.inr (by decide)),
   failed_calls_attach_decoded_response.2.2.2.2.1 500
      ⟨1, "OK", "boom", 0, 0, 0, 0, 0, 0, 0, 0, 0, 0⟩ (by decide)⟩

/-- Embedding of an outgoing HTTP request as the client builds it: method,
target URL, the header map written by Header.Set, basic-auth credentials,
and the body bytes that will be transmitted when it is sent. -/
structure RequestModel where
  method : String
  url : String
  headers : List (String × String)
  user : String
  pass : String
  body : List Nat
deriving DecidableEq, Repr

/-- Embedding of resp.Header.Get(key): the first value stored under the
key, or the empty string when the header is absent (Go returns "" for a
missing header). -/
def headerGet (hs : List (String × String)) (key : String) : String :=
  match hs.find? (fun p => p.1 == key) with
  | some p => p.2
  | none => ""

/-- Embedding of the 307-redirect block that every operation repeats: if
the first response has status 307, read the location header; fail with the
protocol-violation error when it is empty, otherwise build the redirect
request from the location (mkRedirectReq carries the operation-specific
method, headers, credentials and body) and send it with httpClient.Do
(the send2 oracle), bypassing the pool. The first component reports the
redirect request that was issued, if any. -/
def handle307 (mkRedirectReq : String → RequestModel)
    (send2 : RequestModel → Except String HttpResponse)
    (resp : HttpResponse) : Option RequestModel × Except String HttpResponse :=
  if resp.statusCode = 307 then
    let location := headerGet resp.headers "Location"
    if location = "" then
      (none, .error "received 307 redirect without Location header")
    else
      let redirectReq := mkRedirectReq location
      match send2 redirectReq with
      | .ok r2 => (some redirectReq, .ok r2)
      | .error e => (some redirectReq, .error ("failed to send redirect request: " ++ e))
  else
    (none, .ok resp)

/-- Go bytes.Buffer and bytes.Reader state: the underlying bytes plus the
read offset. Reading consumes: the HTTP transport drains the reader when
it transmits a request body. -/
structure BufState where
  data : List Nat
  pos : Nat
deriving DecidableEq, Repr

/-- Unread portion of a buffer or reader, which is exactly what a request
built from it will transmit. -/
def bufRemaining (b : BufState) : List Nat :=
  b.data.drop b.pos

/-- Buffer state after the transport has read it to EOF. -/
def bufDrain (b : BufState) : BufState :=
  { b with pos := b.data.length }

/-- Response phase of Load after doRequest returned a response: handle the
307 redirect (the redirect request is a PUT to the location carrying the
same headers map, the same basic auth, and whatever is left unread in
dataBuf), then decode the effective body and validate. The decode oracle
stands for json.Unmarshal. -/
def loadResponsePhase (send2 : RequestModel → Except String HttpResponse)
    (user pass : String) (headers : List (String × String)) (dataBuf : BufState)
    (decode : String → Option LoadResponse) (resp : HttpResponse) :
    Option RequestModel × Option LoadResponse × Option String :=
  let out := handle307
    (fun location => ⟨"PUT", location, headers, user, pass, bufRemaining dataBuf⟩)
    send2 resp
  match out.2 with
  | .error e => (out.1, none, some e)
  | .ok r =>
    match decode r.body with
    | none => (out.1, none, some "failed to parse response")
    | some loadResp => (out.1, loadValidate r.statusCode loadResp)

/-- Response phase of BeginTransaction after doRequest returned a
response: the redirect request is a POST to the location with no body and
the same five explicitly set headers plus basic auth. -/
def beginResponsePhase (send2 : RequestModel → Except String HttpResponse)
    (user pass db label tableValue : String)
    (decode : String → Option TransactionBeginResponse) (resp : HttpResponse) :
    Option RequestModel × Option TransactionBeginResponse × Option String :=
  let out := handle307
    (fun location =>
      ⟨"POST", location,
       [("Content-Type", "application/json"), ("Expect", "100-continue"),
        ("label", label), ("db", db), ("table", tableValue)],
       user, pass, []⟩)
    send2 resp
  match out.2 with
  | .error e => (out.1, none, some e)
  | .ok r =>
    match decode r.body with
    | none => (out.1, none, some "failed to parse response")
    | some txnResp => (out.1, beginValidate r.statusCode txnResp)

/-- Claim C6: a first response with status 307 but an absent (empty)
Location header makes the operation fail with the protocol-violation
error; no second request is issued and no decoded response is produced, so
nothing is retried against any endpoint. Shown for the Load phase and the
BeginTransaction phase, whose redirect blocks the claim cites. -/
theorem redirect_without_location_is_fatal
    (send2 : RequestModel → Except String HttpResponse)
    (user pass db label tableValue : String)
    (headers : List (String × String)) (dataBuf : BufState)
    (decodeL : String → Option LoadResponse)
    (decodeB : String → Option TransactionBeginResponse)
    (resp : HttpResponse)
    (h307 : resp.statusCode = 307)
    (hloc : headerGet resp.headers "Location" = "") :
    loadResponsePhase send2 user pass headers dataBuf decodeL resp =
      (none, none, some "received 307 redirect without Location header") ∧
    beginResponsePhase send2 user pass db label tableValue decodeB resp =
      (none, none, some "received 307 redirect without Location header") := by
  constructor
  · simp [loadResponsePhase, handle307, h307, hloc]
  · simp [beginResponsePhase, handle307, h307, hloc]

/-- Witness for C6 at a concrete 307 response carrying no headers at
all. -/
theorem redirect_without_location_is_fatal_witness :
    loadResponsePhase (fun _ => .error "unused") "u" "p" [] ⟨[], 0⟩
        (fun _ => none) ⟨307, [], ""⟩ =
      (none, none, some "received 307 redirect without Location header") ∧
    beginResponsePhase (fun _ => .error "unused") "u" "p" "db" "lbl" "t"
        (fun _ => none) ⟨307, [], ""⟩ =
      (none, none, some "received 307 redirect without Location header") :=
  redirect_without_location_is_fatal (fun _ => .error "unused") "u" "p" "db"
    "lbl" "t" [] ⟨[], 0⟩ (fun _ => none) (fun _ => none) ⟨307, [], ""⟩ rfl rfl

/-- Response phase of LoadTransaction after doRequest returned a response.
Unlike Load, the body was wrapped in bytes.NewReader and the code calls
reader.Seek(0, io.SeekStart) before building the redirect request, so the
redirect body is always the full buffered payload, whatever the first
transmission consumed. -/
def loadTxnResponsePhase (send2 : RequestModel → Except String HttpResponse)
    (user pass : String) (headers : List (String × String)) (reader : BufState)
    (decode : String → Option LoadResponse) (resp : HttpResponse) :
    Option RequestModel × Option LoadResponse × Option String :=
  let out := handle307
    (fun location =>
      let seeked : BufState := { reader with pos := 0 }
      ⟨"PUT", location, headers, user, pass, bufRemaining seeked⟩)
    send2 resp
  match out.2 with
  | .error e => (out.1, none, some e)
  | .ok r =>
    match decode r.body with
    | none => (out.1, none, some "failed to parse response")
    | some loadResp => (out.1, loadTxnValidate r.statusCode loadResp)

/-- Claim C2 is refuted for Load and holds for LoadTransaction. In Load
the redirect request is built from the same bytes.Buffer (&dataBuf) that
the first transmission already drained — Go buffer reads consume — so
whenever the transport transmitted the body before the 307 arrived (the
Expect 100-continue handshake can elide the transmission, but a server
that reads the body first then redirects, or a transport that timed out
waiting for the 100, does transmit it), the replayed body is empty rather
than byte-identical. LoadTransaction seeks its bytes.Reader back to offset
0 and does replay the identical bytes. Headers and credentials are carried
over identically in both. The first two conjuncts are general; the last
two evaluate the Load phase at a concrete drained buffer and exhibit the
empty replay. -/
theorem load_redirect_replay_divergence :
    (∀ (user pass : String) (headers : List (String × String)) (data : List Nat)
       (pos : Nat) (send2 : RequestModel → Except String HttpResponse)
       (dec : String → Option LoadResponse),
      (loadTxnResponsePhase send2 user pass headers ⟨data, pos⟩ dec
          ⟨307, [("Location", "http://be:8040/x")], ""⟩).1 =
        some ⟨"PUT", "http://be:8040/x", headers, user, pass, data⟩) ∧
    (∀ (user pass : String) (headers : List (String × String)) (data : List Nat)
       (send2 : RequestModel → Except String HttpResponse)
       (dec : String → Option LoadResponse),
      (loadResponsePhase send2 user pass headers (bufDrain ⟨data, 0⟩) dec
          ⟨307, [("Location", "http://be:8040/x")], ""⟩).1 =
        some ⟨"PUT", "http://be:8040/x", headers, user, pass, []⟩) ∧
    (loadResponsePhase (fun _ => .ok ⟨200, [], ""⟩) "u" "p" []
        (bufDrain ⟨[104, 105], 0⟩) (fun _ => none)
        ⟨307, [("Location", "http://be:8040/x")], ""⟩).1 =
      some ⟨"PUT", "http://be:8040/x", [], "u", "p", []⟩ ∧
    (loadResponsePhase (fun _ => .ok ⟨200, [], ""⟩) "u" "p" []
        (bufDrain ⟨[104, 105], 0⟩) (fun _ => none)
        ⟨307, [("Location", "http://be:8040/x")], ""⟩).1 ≠
      some ⟨"PUT", "http://be:8040/x", [], "u", "p", [104, 105]⟩ := by
  refine ⟨?_, ?_, ?_, ?_⟩
  · intro user pass headers data pos send2 dec
    simp only [loadTxnResponsePhase, handle307, headerGet]
    simp only [List.find?, bufRemaining, List.drop_zero]
    norm_num
    cases h : send2 ⟨"PUT", "http://be:8040/x", headers, user, pass, data⟩ with
    | ok r2 =>
      simp [h]
      cases dec r2.body <;> simp
    | error e => simp [h]
  · intro user pass headers data send2 dec
    simp only [loadResponsePhase, handle307, headerGet, bufDrain]
    simp only [List.find?, bufRemaining, List.drop_length]
    norm_num
    cases h : send2 ⟨"PUT", "http://be:8040/x", headers, user, pass, []⟩ with
    | ok r2 =>
      simp [h]
      cases dec r2.body <;> simp
    | error e => simp [h]
  · decide
  · decide

/-- Outcome of running a Go function that can panic: either a normal
return value or a runtime panic. -/
inductive GoOutcome (α : Type) where
  | ok : α → GoOutcome α
  | panicked : String → GoOutcome α
deriving DecidableEq, Repr

/-- Embedding of Client.BeginTransaction: tableValue := tables[0] is read
before any request is created or sent, so an empty tables slice panics
with an index-out-of-range runtime error immediately; otherwise the POST
is dispatched through doRequest to /api/transaction/begin and the response
phase runs. Only the first element of tables is ever used. -/
def BeginTransaction (c : ClientState) (user pass db : String)
    (send : Nat → String → Except String HttpResponse)
    (send2 : RequestModel → Except String HttpResponse)
    (decode : String → Option TransactionBeginResponse)
    (label : String) (tables : List String) :
    GoOutcome (DoRequestResult ×
      (Option RequestModel × Option TransactionBeginResponse × Option String)) :=
  match tables with
  | [] => .panicked "runtime error: index out of range [0] with length 0"
  | tableValue :: _ =>
    let dres := doRequest send "/api/transaction/begin" c
    match dres.resp with
    | none =>
      .ok (dres, none, none, some ("failed to send request: " ++ dres.err.getD ""))
    | some resp =>
      .ok (dres, beginResponsePhase send2 user pass db label tableValue decode resp)

/-- Claim C9: BeginTransaction reads only the first element of tables —
any two table lists with the same head produce identical behaviour — and
an empty tables slice panics with an index-out-of-range runtime error
before any request is built or dispatched (the panic branch never consults
the transport). -/
theorem beginTransaction_reads_only_first_table
    (c : ClientState) (user pass db label : String)
    (send : Nat → String → Except String HttpResponse)
    (send2 : RequestModel → Except String HttpResponse)
    (decode : String → Option TransactionBeginResponse) :
    BeginTransaction c user pass db send send2 decode label [] =
      .panicked "runtime error: index out of range [0] with length 0" ∧
    (∀ tables tables' : List String, tables.head? = tables'.head? →
      BeginTransaction c user pass db send send2 decode label tables =
        BeginTransaction c user pass db send send2 decode label tables') := by
  refine ⟨rfl, ?_⟩
  intro tables tables' hh
  cases tables with
  | nil =>
    cases tables' with
    | nil => rfl
    | cons t' rest' => simp at hh
  | cons t rest =>
    cases tables' with
    | nil => simp at hh
    | cons t' rest' =>
      simp only [List.head?] at hh
      injection hh with hh
      subst hh
      rfl

/-- Witness for C9: two table lists sharing the head "t" behave
identically, and the empty list panics. -/
theorem beginTransaction_reads_only_first_table_witness :
    BeginTransaction ⟨[⟨"a", "1"⟩], 0⟩ "u" "p" "db"
        (fun _ _ => .error "down") (fun _ => .error "down") (fun _ => none)
        "lbl" [] =
      .panicked "runtime error: index out of range [0] with length 0" ∧
    BeginTransaction ⟨[⟨"a", "1"⟩], 0⟩ "u" "p" "db"
        (fun _ _ => .error "down") (fun _ => .error "down") (fun _ => none)
        "lbl" ["t", "x"] =
      BeginTransaction ⟨[⟨"a", "1"⟩], 0⟩ "u" "p" "db"
        (fun _ _ => .error "down") (fun _ => .error "down") (fun _ => none)
        "lbl" ["t", "y", "z"] :=
  ⟨(beginTransaction_reads_only_first_table ⟨[⟨"a", "1"⟩], 0⟩ "u" "p" "db" "lbl"
      (fun _ _ => .error "down") (fun _ => .error "down") (fun _ => none)).1,
   (beginTransaction_reads_only_first_table ⟨[⟨"a", "1"⟩], 0⟩ "u" "p" "db" "lbl"
      (fun _ _ => .error "down") (fun _ => .error "down") (fun _ => none)).2
     ["t", "x"] ["t", "y", "z"] rfl⟩

/-- Embedding of one Go struct field as the extractors see it: the field
name and the raw csv and json tag strings (Tag.Get returns "" when the tag
is absent). -/
structure GoField where
  name : String
  csvTag : String
  jsonTag : String
deriving DecidableEq, Repr

/-- Embedding of a Go struct type: its ordered field list. This is the
runtime type that keys the column cache. -/
structure GoStructType where
  fields : List GoField
deriving DecidableEq, Repr

/-- Embedding of the reflect types the extractors inspect: a struct type,
a pointer type, or something else (carrying its Kind name for the error
message). -/
inductive GoType where
  | structT : GoStructType → GoType
  | ptrTo : GoType → GoType
  | other : String → GoType
deriving DecidableEq, Repr

/-- Kind name of a type, as reflect Kind.String would print it. -/
def GoType.kindStr : GoType → String
  | .structT _ => "struct"
  | .ptrTo _ => "ptr"
  | .other k => k

/-- Embedding of the reflect value passed as the structs argument: a slice
with its element type and length, a pointer to a value, or some other
kind. -/
inductive GoValue where
  | slice : GoType → Nat → GoValue
  | ptrTo : GoValue → GoValue
  | other : String → GoValue
deriving DecidableEq, Repr

/-- Kind name of a value, as reflect Kind.String would print it. -/
def GoValue.kindStr : GoValue → String
  | .slice _ _ => "slice"
  | .ptrTo _ => "ptr"
  | .other k => k

/-- Embedding of strings.ToLower as used on the ASCII Go field names. -/
def strToLower (s : String) : String :=
  String.mk (s.data.map Char.toLower)

/-- Embedding of the json-tag option cut: Go takes jsonTag[:idx] at the
first comma when strings.Index finds one, and leaves the tag unchanged
otherwise — exactly the prefix of characters before the first comma. -/
def cutAtComma (s : String) : String :=
  String.mk (s.data.takeWhile (fun c => c ≠ ','))

/-- Column derived from one field by extractCSVColumns: an absent csv tag
falls back to the lowercased field name, and a "-" tag skips the field. -/
def fieldCSVColumn (f : GoField) : Option String :=
  let csvTag := if f.csvTag = "" then strToLower f.name else f.csvTag
  if csvTag = "-" then none else some csvTag

/-- Embedding of extractCSVColumns (struct_loader.go): unwrap one pointer,
require a non-empty slice of structs (unwrapping one pointer on the
element type), then collect the csv-tag column names in field order and
join them with commas. -/
def extractCSVColumns (structs : GoValue) : Except String String :=
  let val := match structs with
    | .ptrTo v => v
    | v => v
  match val with
  | .slice elemT len =>
    if len = 0 then .error "structs slice is empty, cannot extract columns"
    else
      let elemType := match elemT with
        | .ptrTo t => t
        | t => t
      match elemType with
      | .structT t =>
        let columns := t.fields.filterMap fieldCSVColumn
        if columns.length = 0 then .error "no columns found in struct"
        else .ok (String.intercalate "," columns)
      | e => .error ("slice elements must be structs, got " ++ e.kindStr)
  | v => .error ("structs parameter must be a slice, got " ++ v.kindStr)

/-- Column derived from one field by extractJSONColumns: an absent json
tag falls back to the lowercased field name, tag options after a comma are
cut off, and a "-" tag skips the field. -/
def fieldJSONColumn (f : GoField) : Option String :=
  let jsonTag := if f.jsonTag = "" then strToLower f.name else f.jsonTag
  let jsonTag := cutAtComma jsonTag
  if jsonTag = "-" then none else some jsonTag

/-- Embedding of extractJSONColumns (struct_loader.go): same shape checks
as extractCSVColumns, with json tags and comma-option trimming. -/
def extractJSONColumns (structs : GoValue) : Except String String :=
  let val := match structs with
    | .ptrTo v => v
    | v => v
  match val with
  | .slice elemT len =>
    if len = 0 then .error "structs slice is empty, cannot extract columns"
    else
      let elemType := match elemT with
        | .ptrTo t => t
        | t => t
      match elemType with
      | .structT t =>
        let columns := t.fields.filterMap fieldJSONColumn
        if columns.length = 0 then .error "no columns found in struct"
        else .ok (String.intercalate "," columns)
      | e => .error ("slice elements must be structs, got " ++ e.kindStr)
  | v => .error ("structs parameter must be a slice, got " ++ v.kindStr)

/-- Element struct type that keys the column cache for an argument that
passes the extractor shape checks (pointer unwrap, non-empty slice,
struct element after one pointer unwrap); none otherwise. -/
def structKeyOf (structs : GoValue) : Option GoStructType :=
  let val := match structs with
    | .ptrTo v => v
    | v => v
  match val with
  | .slice elemT len =>
    if len = 0 then none
    else
      match (match elemT with | .ptrTo t => t | t => t) with
      | .structT t => some t
      | _ => none
  | _ => none

/-- Modelled from the spec: the csv column-list cache is keyed by the
record's runtime type, created lazily on first extraction per type, reused
by subsequent extractions, and never invalidated. The cached variant of
the extractors is referenced by the repository benchmarks
(csvColumnsCache, csvColumnsCacheMu) but its code is not among the given
sources, so the lookup-derive-store discipline here follows the spec
text. -/
def extractCSVColumnsCached (cache : List (GoStructType × String))
    (structs : GoValue) : Except String String × List (GoStructType × String) :=
  match structKeyOf structs with
  | some t =>
    match cache.find? (fun p => p.1 = t) with
    | some p => (.ok p.2, cache)
    | none =>
      match extractCSVColumns structs with
      | .ok cols => (.ok cols, (t, cols) :: cache)
      | .error e => (.error e, cache)
  | none => (extractCSVColumns structs, cache)

/-- Modelled from the spec: the json column-list cache, with the same
lazy type-keyed discipline as the csv one (jsonColumnsCache in the
benchmarks). -/
def extractJSONColumnsCached (cache : List (GoStructType × String))
    (structs : GoValue) : Except String String × List (GoStructType × String) :=
  match structKeyOf structs with
  | some t =>
    match cache.find? (fun p => p.1 = t) with
    | some p => (.ok p.2, cache)
    | none =>
      match extractJSONColumns structs with
      | .ok cols => (.ok cols, (t, cols) :: cache)
      | .error e => (.error e, cache)
  | none => (extractJSONColumns structs, cache)

lemma extractCSVColumnsCached_idem (cache : List (GoStructType × String))
    (s : GoValue) :
    extractCSVColumnsCached (extractCSVColumnsCached cache s).2 s =
      extractCSVColumnsCached cache s := by
  cases hk : structKeyOf s with
  | none => simp [extractCSVColumnsCached, hk]
  | some t =>
    cases hf : List.find? (fun p => p.1 = t) cache with
    | some p => simp [extractCSVColumnsCached, hk, hf]
    | none =>
      cases he : extractCSVColumns s with
      | ok cols =>
        simp only [extractCSVColumnsCached, hk, hf, he]
        rw [List.find?_cons_of_pos _ (by simp)]
      | error e => simp [extractCSVColumnsCached, hk, hf, he]

lemma extractJSONColumnsCached_idem (cache : List (GoStructType × String))
    (s : GoValue) :
    extractJSONColumnsCached (extractJSONColumnsCached cache s).2 s =
      extractJSONColumnsCached cache s := by
  cases hk : structKeyOf s with
  | none => simp [extractJSONColumnsCached, hk]
  | some t =>
    cases hf : List.find? (fun p => p.1 = t) cache with
    | some p => simp [extractJSONColumnsCached, hk, hf]
    | none =>
      cases he : extractJSONColumns s with
      | ok cols =>
        simp only [extractJSONColumnsCached, hk, hf, he]
        rw [List.find?_cons_of_pos _ (by simp)]
      | error e => simp [extractJSONColumnsCached, hk, hf, he]

/-- Claim C7: column derivation is deterministic, and through the
type-keyed cache a second extraction for the same record type returns the
identical column list while leaving the cache contents unchanged; the
first extraction from an empty cache returns exactly what direct
derivation computes (the miss path derives and stores, the hit path reuses
without re-deriving). -/
theorem column_extraction_idempotent :
    (∀ (cache : List (GoStructType × String)) (s : GoValue),
      extractCSVColumnsCached (extractCSVColumnsCached cache s).2 s =
        extractCSVColumnsCached cache s) ∧
    (∀ (cache : List (GoStructType × String)) (s : GoValue),
      extractJSONColumnsCached (extractJSONColumnsCached cache s).2 s =
        extractJSONColumnsCached cache s) ∧
    (∀ s : GoValue, (extractCSVColumnsCached [] s).1 = extractCSVColumns s) ∧
    (∀ s : GoValue, (extractJSONColumnsCached [] s).1 = extractJSONColumns s) := by
  refine ⟨extractCSVColumnsCached_idem, extractJSONColumnsCached_idem, ?_, ?_⟩
  · intro s
    cases hk : structKeyOf s with
    | none => simp [extractCSVColumnsCached, hk]
    | some t =>
      cases he : extractCSVColumns s with
      | ok cols => simp [extractCSVColumnsCached, hk, he]
      | error e => simp [extractCSVColumnsCached, hk, he]
  · intro s
    cases hk : structKeyOf s with
    | none => simp [extractJSONColumnsCached, hk]
    | some t =>
      cases he : extractJSONColumns s with
      | ok cols => simp [extractJSONColumnsCached, hk, he]
      | error e => simp [extractJSONColumnsCached, hk, he]

/-- Embedding of the Go string type CompressionType and its constants. -/
abbrev CompressionType := String

/-- Constant CompressionNone: the empty string. -/
def CompressionNone : CompressionType := ""

/-- Constant CompressionGZIP. -/
def CompressionGZIP : CompressionType := "GZIP"

/-- Constant CompressionLZ4. -/
def CompressionLZ4 : CompressionType := "LZ4_FRAME"

/-- Constant CompressionZSTD. -/
def CompressionZSTD : CompressionType := "ZSTD"

/-- Constant CompressionBZIP2. -/
def CompressionBZIP2 : CompressionType := "BZIP2"

/-- Embedding of the Go string type DataFormat and its constants. -/
abbrev DataFormat := String

/-- Constant FormatCSV. -/
def FormatCSV : DataFormat := "csv"

/-- Constant FormatJSON. -/
def FormatJSON : DataFormat := "json"

/-- Embedding of Go struct LoadOptions (Timeout is a duration in
nanoseconds). -/
structure LoadOptions where
  Format : DataFormat
  Compression : CompressionType
  Columns : String
  ColumnSeparator : String
  RowDelimiter : String
  Where : String
  MaxFilterRatio : String
  Timeout : Int
  TimeoutStr : String
  StrictMode : Bool
  StripOuterArray : Bool
  Label : String
  Table : String
  Partitions : List String
  TemporaryPartitions : List String
  LogRejectedRecordNum : Int
  Timezone : String
  LoadMemLimit : Int
deriving DecidableEq, Repr

/-- Embedding of the option rewriting done by LoadStructsJSON before it
delegates to Load: derive Columns via extractJSONColumns when the caller
left it empty (propagating the extraction error), force Format to json,
default Compression to ZSTD only when it is none, and force
StripOuterArray to true. The JSON marshalling of the record slice affects
only the body, not the options, and is left to the encoding collaborator. -/
def LoadStructsJSON_options (structs : GoValue) (opts0 : LoadOptions) :
    Except String LoadOptions :=
  let step1 : Except String LoadOptions :=
    if opts0.Columns = "" then
      match extractJSONColumns structs with
      | .error e => .error ("failed to extract columns: " ++ e)
      | .ok columns => .ok { opts0 with Columns := columns }
    else .ok opts0
  match step1 with
  | .error e => .error e
  | .ok o =>
    let o1 := { o with Format := FormatJSON }
    let o2 := if o1.Compression = CompressionNone then
        { o1 with Compression := CompressionZSTD }
      else o1
    let o3 := { o2 with StripOuterArray := true }
    .ok o3

/-- Claim C10: whenever LoadStructsJSON reaches Load, the options it
passes have Format forced to json and StripOuterArray forced to true
unconditionally, and Compression equal to ZSTD exactly when the caller
left it as none, otherwise the caller's choice is kept. -/
theorem loadStructsJSON_forces_options (structs : GoValue)
    (opts : LoadOptions) (o : LoadOptions)
    (h : LoadStructsJSON_options structs opts = .ok o) :
    o.Format = FormatJSON ∧
    o.StripOuterArray = true ∧
    (opts.Compression = CompressionNone → o.Compression = CompressionZSTD) ∧
    (opts.Compression ≠ CompressionNone → o.Compression = opts.Compression) := by
  unfold LoadStructsJSON_options at h
  by_cases hc : opts.Columns = ""
  · simp only [hc, if_true] at h
    cases he : extractJSONColumns structs with
    | error e =>
      rw [he] at h
      simp at h
    | ok columns =>
      rw [he] at h
      simp only at h
      by_cases hcomp : opts.Compression = CompressionNone
      · simp only [hcomp, if_pos rfl] at h
        injection h with h
        subst h
        exact ⟨rfl, rfl, fun _ => rfl, fun hn => absurd hcomp hn⟩
      · rw [if_neg (by simpa using hcomp)] at h
        injection h with h
        subst h
        exact ⟨rfl, rfl, fun hx => absurd hx hcomp, fun _ => rfl⟩
  · rw [if_neg hc] at h
    simp only at h
    by_cases hcomp : opts.Compression = CompressionNone
    · simp only [hcomp, if_pos rfl] at h
      injection h with h
      subst h
      exact ⟨rfl, rfl, fun _ => rfl, fun hn => absurd hcomp hn⟩
    · rw [if_neg (by simpa using hcomp)] at h
      injection h with h
      subst h
      exact ⟨rfl, rfl, fun hx => absurd hx hcomp, fun _ => rfl⟩

/-- Witness for C10: a caller with empty Columns, csv Format, GZIP
compression and StripOuterArray false; the options handed to Load keep
GZIP but are forced to json with StripOuterArray true. -/
theorem loadStructsJSON_forces_options_witness :
    ∃ res : LoadOptions,
      LoadStructsJSON_options
          (GoValue.slice (GoType.structT ⟨[⟨"Id", "id", "id"⟩]⟩) 1)
          ⟨FormatCSV, CompressionGZIP, "", "", "", "", "", 0, "", false, false,
            "", "", [], [], 0, "", 0⟩ = .ok res ∧
      res.Format = FormatJSON ∧ res.StripOuterArray = true ∧
      res.Compression = CompressionGZIP := by
  refine ⟨_, rfl, ?_⟩
  have h := loadStructsJSON_forces_options
    (GoValue.slice (GoType.structT ⟨[⟨"Id", "id", "id"⟩]⟩) 1)
    ⟨FormatCSV, CompressionGZIP, "", "", "", "", "", 0, "", false, false,
      "", "", [], [], 0, "", 0⟩
    _ rfl
  exact ⟨h.1, h.2.1, h.2.2.2 (by decide)⟩
